import Mathlib

set_option linter.unusedVariables false

/-!
Verification of the token authentication service
(front-end/app-nxt/src/client/studio/services/auth-token.service.ts).

The service is embedded as an explicit state machine: the state carries the
held access token, the current values of the two behavior subjects, the delays
(in milliseconds, as handed to setTimeout) of the armed timers, and the HTTP
GET currently in flight, if any.  The events are: an armed timer fires
(reading the browser environment at that moment), or the in-flight request
completes with a parsed JSON body or with an error.  Optional JS values
(undefined fields, a number that may be undefined) are embedded as Option.
-/

namespace TokenAuth

/-- A user object, as carried by the user model of the application.  Its
content is irrelevant to this service, which only stores and republishes it. -/
structure User where
  displayName : String
deriving DecidableEq

/-- The configuration collaborator (ConfigService): initial token, refresh
period in seconds (none embeds a missing or undefined value), initial user
(none embeds null), and the logout URL. -/
structure ConfigService where
  authToken : String
  authRefreshPeriod : Option Int
  user : Option User
  logoutUrl : String
deriving DecidableEq

/-- The parsed JSON body of a refresh response.  Fields are Option because a
JS property read on a missing key yields undefined. -/
structure AuthBody where
  token : Option String
  tokenRefreshPeriod : Option Int
deriving DecidableEq

/-- An HTTP error as seen by the catch handler; only its status is inspected
by the source (lines 155-157), and even there no action is taken. -/
structure HttpError where
  status : Int
deriving DecidableEq

/-- The browser environment read on each refresh attempt: the href of the
first base element of the document, and location.origin. -/
structure BrowserEnv where
  baseHref : String
  origin : String
deriving DecidableEq

/-- The GET request issued by refreshToken: its url, the Accept header value,
and the observe option requesting full response metadata (lines 128-133). -/
structure HttpRequest where
  url : String
  accept : String
  observe : String
deriving DecidableEq

/-- JS truthiness of a number that may be undefined: undefined and 0 are
falsy, every other integer is truthy. -/
def truthyNum : Option Int → Bool
  | none => false
  | some n => n != 0

/-- The scheduling block shared by the constructor (lines 53-60) and the
success handler (lines 144-151): when the refresh period is truthy, arm one
timer with delay refreshPeriod * 1000 milliseconds; otherwise arm none. -/
def scheduleIfTruthy : Option Int → List Int
  | none => []
  | some n => if n != 0 then [n * 1000] else []

/-- The full state of the service: the held token (which a refresh can set to
undefined), the current value and the completed and errored flags of the
authenticated subject, the current value of the user subject, the delays (ms)
of the armed timers, and the request in flight if any. -/
structure SvcState where
  accessToken : Option String
  authenticatedValue : Bool
  authCompleted : Bool
  authErrored : Bool
  userValue : Option User
  pendingTimers : List Int
  inFlight : Option HttpRequest
deriving DecidableEq

/-- The constructor (lines 46-61): store the configured token, publish
authenticated = true and the configured user, and run the truthiness-guarded
scheduling block on the configured refresh period. -/
def construct (config : ConfigService) : SvcState :=
  { accessToken := some config.authToken
    authenticatedValue := true
    authCompleted := false
    authErrored := false
    userValue := config.user
    pendingTimers := scheduleIfTruthy config.authRefreshPeriod
    inFlight := none }

/-- Modelled from the spec: the rxjs BehaviorSubject behind isAuthenticated
(lines 33-34 and 67-69) is an external library not present in the sources;
per the spec, a new subscriber immediately receives the current value of the
subject.  This gives the first emission seen by a subscriber. -/
def isAuthenticatedFirstEmission (s : SvcState) : Bool :=
  s.authenticatedValue

/-- getAuthenticatedUserNow (lines 83-85): the current value of the user
subject. -/
def getAuthenticatedUserNow (s : SvcState) : Option User :=
  s.userValue

/-- getAuthenticationSecret (lines 116-118): the held access token. -/
def getAuthenticationSecret (s : SvcState) : Option String :=
  s.accessToken

/-- JS coercion of a possibly-undefined string into a string, as performed by
string concatenation; undefined prints as the text undefined. -/
def jsShow : Option String → String
  | some t => t
  | none => "undefined"

/-- injectAuthHeaders (lines 107-110): set the Authorization key of the given
header map to the text bearer followed by the current token. -/
def injectAuthHeaders (s : SvcState) (headers : String → Option String) :
    String → Option String :=
  fun k =>
    if k = "Authorization" then some ("bearer " ++ jsShow s.accessToken)
    else headers k

/-- login (lines 92-94): unconditionally fails with a not-supported error,
for every user name and every credential of any type. -/
def login {α : Type} (user : String) (credential : α) : Except String User :=
  Except.error "Not supported."

/-- logout (lines 99-101): navigate to the configured logout URL. -/
def logout (config : ConfigService) : String :=
  config.logoutUrl

/-- The test of line 125: the indexOf of the slash character in the string is
0, which holds exactly when its first character is a slash. -/
def startsWithSlash (s : String) : Bool :=
  match s.data with
  | [] => false
  | c :: _ => c == '/'

/-- The base URL computation of refreshToken (lines 124-128): read the href of
the base element; when it starts with the slash character (its indexOf is 0),
prepend location.origin; then append the literal segment token. -/
def computeTokenUrl (env : BrowserEnv) : String :=
  let base := env.baseHref
  let base := if startsWithSlash base then env.origin ++ base else base
  base ++ "token"

/-- The GET request built by refreshToken (lines 128-133): the computed url,
an Accept header of application/json, and the observe response option. -/
def refreshRequest (env : BrowserEnv) : HttpRequest :=
  { url := computeTokenUrl env
    accept := "application/json"
    observe := "response" }

/-- The success handler of refreshToken (lines 141-151): overwrite the held
token with the token field of the body, then run the truthiness-guarded
scheduling block on the tokenRefreshPeriod field.  The promise completes, so
no request remains in flight. -/
def refreshSuccessHandler (s : SvcState) (auth : AuthBody) : SvcState :=
  { s with
    accessToken := auth.token
    pendingTimers := s.pendingTimers ++ scheduleIfTruthy auth.tokenRefreshPeriod
    inFlight := none }

/-- The failure handler of refreshToken (lines 152-161): the status is
compared with 0 but no distinguishing action is taken (the block is empty,
marked TODO in the source); unconditionally arm one retry timer with delay
30 * 1000 milliseconds. -/
def refreshFailureHandler (s : SvcState) (error : HttpError) : SvcState :=
  { s with
    pendingTimers := s.pendingTimers ++ [30 * 1000]
    inFlight := none }

/-- The events driving the refresh loop. -/
inductive Event where
  | timerFires (env : BrowserEnv)
  | refreshSuccess (auth : AuthBody)
  | refreshFailure (error : HttpError)

/-- One step of the single-threaded event loop.  A timer callback can run only
when a timer is armed; it consumes the timer and issues the GET built from the
browser environment read at that moment (refreshToken, lines 123-137).  A
completion handler can run only while a request is in flight. -/
def step (s : SvcState) : Event → Option SvcState
  | Event.timerFires env =>
    match s.pendingTimers with
    | [] => none
    | _ :: rest =>
      some { s with pendingTimers := rest, inFlight := some (refreshRequest env) }
  | Event.refreshSuccess auth =>
    match s.inFlight with
    | some _ => some (refreshSuccessHandler s auth)
    | none => none
  | Event.refreshFailure error =>
    match s.inFlight with
    | some _ => some (refreshFailureHandler s error)
    | none => none

/-- The states reachable from construction under the event loop. -/
inductive Reachable (config : ConfigService) : SvcState → Prop where
  | init : Reachable config (construct config)
  | next : ∀ s e s', Reachable config s → step s e = some s' →
      Reachable config s'

/-- The number of armed timers plus one for an in-flight request: the quantity
governing the at-most-one-pending-refresh invariant. -/
def timerBudget (s : SvcState) : Nat :=
  s.pendingTimers.length + (if s.inFlight.isSome then 1 else 0)

/-- A concrete user for witnesses. -/
def exUser : User := { displayName := "alice" }

/-- A concrete configuration for witnesses: token abc, refresh period 60
seconds. -/
def exCfg : ConfigService :=
  { authToken := "abc"
    authRefreshPeriod := some 60
    user := some exUser
    logoutUrl := "/logout" }

/-- A concrete browser environment for witnesses. -/
def exEnv : BrowserEnv :=
  { baseHref := "/studio/", origin := "http://example.test" }

/-- The state reached from the example configuration after the initial timer
fires: the GET is in flight and no timer is armed. -/
def exRefreshing : SvcState :=
  { accessToken := some "abc"
    authenticatedValue := true
    authCompleted := false
    authErrored := false
    userValue := some exUser
    pendingTimers := []
    inFlight := some (refreshRequest exEnv) }

/-- The scheduling block arms at most one timer. -/
lemma length_scheduleIfTruthy (p : Option Int) :
    (scheduleIfTruthy p).length ≤ 1 := by
  cases p with
  | none => simp [scheduleIfTruthy]
  | some n =>
    simp only [scheduleIfTruthy]
    split <;> simp

/-- Each step leaves the timer budget unchanged or smaller. -/
lemma timerBudget_step {s s' : SvcState} {e : Event}
    (h : step s e = some s') : timerBudget s' ≤ timerBudget s := by
  cases e with
  | timerFires env =>
    cases hp : s.pendingTimers with
    | nil => simp [step, hp] at h
    | cons t rest =>
      simp only [step, hp] at h
      cases h
      simp only [timerBudget, hp, List.length_cons, Option.isSome_some]
      cases s.inFlight <;> simp
  | refreshSuccess auth =>
    cases hf : s.inFlight with
    | none => simp [step, hf] at h
    | some r =>
      simp only [step, hf] at h
      cases h
      have hlen := length_scheduleIfTruthy auth.tokenRefreshPeriod
      simp [timerBudget, refreshSuccessHandler, hf]
      omega
  | refreshFailure error =>
    cases hf : s.inFlight with
    | none => simp [step, hf] at h
    | some r =>
      simp only [step, hf] at h
      cases h
      simp [timerBudget, refreshFailureHandler, hf]

/-- In every reachable state the timer budget is at most one. -/
lemma reachable_timerBudget {config : ConfigService} {s : SvcState}
    (h : Reachable config s) : timerBudget s ≤ 1 := by
  induction h with
  | init =>
    have := length_scheduleIfTruthy config.authRefreshPeriod
    simp [timerBudget, construct]
    omega
  | next s e s' hr hstep ih =>
    exact le_trans (timerBudget_step hstep) ih

/-- While a request is in flight, no timer is armed (in reachable states). -/
lemma reachable_inFlight_noTimers {config : ConfigService} {s : SvcState}
    (h : Reachable config s) (hf : s.inFlight.isSome) :
    s.pendingTimers = [] := by
  have hb := reachable_timerBudget h
  simp only [timerBudget, hf, if_pos] at hb
  have : s.pendingTimers.length = 0 := by omega
  exact List.length_eq_zero.mp this

/-- No step changes the authenticated subject, its completion flags, or the
user subject. -/
lemma step_frame {s s' : SvcState} {e : Event} (h : step s e = some s') :
    s'.authenticatedValue = s.authenticatedValue ∧
    s'.authCompleted = s.authCompleted ∧
    s'.authErrored = s.authErrored ∧
    s'.userValue = s.userValue := by
  cases e with
  | timerFires env =>
    cases hp : s.pendingTimers with
    | nil => simp [step, hp] at h
    | cons t rest =>
      simp only [step, hp] at h
      cases h
      exact ⟨rfl, rfl, rfl, rfl⟩
  | refreshSuccess auth =>
    cases hf : s.inFlight with
    | none => simp [step, hf] at h
    | some r =>
      simp only [step, hf] at h
      cases h
      exact ⟨rfl, rfl, rfl, rfl⟩
  | refreshFailure error =>
    cases hf : s.inFlight with
    | none => simp [step, hf] at h
    | some r =>
      simp only [step, hf] at h
      cases h
      exact ⟨rfl, rfl, rfl, rfl⟩

/-- In every reachable state the authenticated subject holds true, has not
completed and has not errored, and the user subject holds the configured
user. -/
lemma reachable_flags {config : ConfigService} {s : SvcState}
    (h : Reachable config s) :
    s.authenticatedValue = true ∧ s.authCompleted = false ∧
    s.authErrored = false ∧ s.userValue = config.user := by
  induction h with
  | init => exact ⟨rfl, rfl, rfl, rfl⟩
  | next s e s' hr hstep ih =>
    obtain ⟨h1, h2, h3, h4⟩ := step_frame hstep
    exact ⟨h1.trans ih.1, h2.trans ih.2.1, h3.trans ih.2.2.1,
      h4.trans ih.2.2.2⟩

/-- The example refreshing state is reachable from the example
configuration. -/
lemma exRefreshing_reachable : Reachable exCfg exRefreshing :=
  Reachable.next (construct exCfg) (Event.timerFires exEnv) exRefreshing
    Reachable.init rfl

/-- C1, counterexample to the claim as stated: the claim says a next refresh
is scheduled if and only if the tokenRefreshPeriod of the body is positive,
but on the body with token xyz and tokenRefreshPeriod equal to -1 (not
positive) the success handler does arm a timer, because the source guards the
scheduling block by JS truthiness, which holds for every nonzero number. -/
theorem spec_c1_counterexample :
    (step exRefreshing
        (Event.refreshSuccess { token := some "xyz", tokenRefreshPeriod := some (-1) })).map
      SvcState.pendingTimers = some [(-1) * 1000]
    ∧ ¬ (0 < (-1 : Int)) := by
  constructor
  · rfl
  · decide

/-- C1 (amended): for every reachable state with a refresh in flight, the
success handler overwrites the held token with the token field of the body
(so getAuthenticationSecret returns it afterwards), and arms exactly one next
refresh timer of tokenRefreshPeriod seconds if and only if that field is
present and nonzero (JS truthiness); when it is zero or absent the token is
still updated but no further timer is armed. -/
theorem spec_c1 {config : ConfigService} {s : SvcState} (hr : Reachable config s)
    {auth : AuthBody} {s' : SvcState}
    (h : step s (Event.refreshSuccess auth) = some s') :
    getAuthenticationSecret s' = auth.token
    ∧ (∀ p : Int, auth.tokenRefreshPeriod = some p → p ≠ 0 →
        s'.pendingTimers = [p * 1000])
    ∧ ((auth.tokenRefreshPeriod = none ∨ auth.tokenRefreshPeriod = some 0) →
        s'.pendingTimers = []) := by
  cases hf : s.inFlight with
  | none => simp [step, hf] at h
  | some r =>
    have hempty : s.pendingTimers = [] :=
      reachable_inFlight_noTimers hr (by simp [hf])
    simp only [step, hf] at h
    cases h
    refine ⟨rfl, ?_, ?_⟩
    · intro p hp hne
      simp [refreshSuccessHandler, hempty, scheduleIfTruthy, hp, hne]
    · rintro (hp | hp) <;>
        simp [refreshSuccessHandler, hempty, scheduleIfTruthy, hp]

/-- C1 witness: a concrete successful refresh with body token xyz and period
60 from the reachable refreshing state updates the secret to xyz and arms one
timer of 60 seconds. -/
theorem spec_c1_witness :
    getAuthenticationSecret
        (refreshSuccessHandler exRefreshing
          { token := some "xyz", tokenRefreshPeriod := some 60 }) = some "xyz"
    ∧ (refreshSuccessHandler exRefreshing
        { token := some "xyz", tokenRefreshPeriod := some 60 }).pendingTimers
      = [60 * 1000] :=
  ⟨(spec_c1 exRefreshing_reachable rfl).1,
   (spec_c1 exRefreshing_reachable rfl).2.1 60 rfl (by decide)⟩

/-- C2: for every reachable state with a refresh in flight, any failure leaves
the held token unchanged, arms exactly one retry timer of 30 seconds, and the
resulting state does not depend on the error (in particular a status of 0 is
handled like any other failure). -/
theorem spec_c2 {config : ConfigService} {s : SvcState} (hr : Reachable config s)
    {error : HttpError} {s' : SvcState}
    (h : step s (Event.refreshFailure error) = some s') :
    getAuthenticationSecret s' = getAuthenticationSecret s
    ∧ s'.pendingTimers = [30 * 1000]
    ∧ (∀ other : HttpError, step s (Event.refreshFailure other) = some s') := by
  cases hf : s.inFlight with
  | none => simp [step, hf] at h
  | some r =>
    have hempty : s.pendingTimers = [] :=
      reachable_inFlight_noTimers hr (by simp [hf])
    simp only [step, hf] at h
    cases h
    refine ⟨rfl, ?_, ?_⟩
    · simp [refreshFailureHandler, hempty]
    · intro other
      simp [step, hf, refreshFailureHandler]

/-- C2 witness: a concrete HTTP 500 failure from the reachable refreshing
state keeps the token abc, arms one 30-second retry timer, and a status-0
failure produces the identical state. -/
theorem spec_c2_witness :
    getAuthenticationSecret (refreshFailureHandler exRefreshing { status := 500 })
      = some "abc"
    ∧ (refreshFailureHandler exRefreshing { status := 500 }).pendingTimers
      = [30 * 1000]
    ∧ step exRefreshing (Event.refreshFailure { status := 0 })
      = some (refreshFailureHandler exRefreshing { status := 500 }) :=
  ⟨(spec_c2 exRefreshing_reachable rfl).1,
   (spec_c2 exRefreshing_reachable rfl).2.1,
   (spec_c2 exRefreshing_reachable rfl).2.2 { status := 0 }⟩

/-- C3: at construction, a positive refresh period r schedules exactly one
refresh timer of r seconds; a zero or absent period schedules none; in both
cases no error is raised (construction is total) and the configured token is
stored unrefreshed. -/
theorem spec_c3 (config : ConfigService) :
    (∀ p : Int, config.authRefreshPeriod = some p → 0 < p →
        (construct config).pendingTimers = [p * 1000])
    ∧ ((config.authRefreshPeriod = none ∨ config.authRefreshPeriod = some 0) →
        (construct config).pendingTimers = [])
    ∧ getAuthenticationSecret (construct config) = some config.authToken := by
  refine ⟨?_, ?_, rfl⟩
  · intro p hp hpos
    simp [construct, scheduleIfTruthy, hp, Int.ne_of_gt hpos]
  · rintro (hp | hp) <;> simp [construct, scheduleIfTruthy, hp]

/-- C3 witness: the example configuration (period 60, token abc) yields one
60-second timer and stores the token. -/
theorem spec_c3_witness :
    (construct exCfg).pendingTimers = [60 * 1000]
    ∧ getAuthenticationSecret (construct exCfg) = some "abc" :=
  ⟨(spec_c3 exCfg).1 60 rfl (by decide), (spec_c3 exCfg).2.2⟩

/-- C4: injectAuthHeaders writes the Authorization key of the supplied
mutable map from the token held at the moment of the call: in any state the
written value is the text bearer followed by the current token, other keys
are untouched, after construction with token abc the call yields the header
bearer abc, and after a successful refresh replaces the token the same call
uses the new token. -/
theorem spec_c4 :
    (∀ (s : SvcState) (headers : String → Option String),
      injectAuthHeaders s headers "Authorization"
        = some ("bearer " ++ jsShow s.accessToken)
      ∧ ∀ k, k ≠ "Authorization" → injectAuthHeaders s headers k = headers k)
    ∧ (∀ (config : ConfigService) (headers : String → Option String),
        config.authToken = "abc" →
        injectAuthHeaders (construct config) headers "Authorization"
          = some "bearer abc")
    ∧ (∀ (s s' : SvcState) (auth : AuthBody) (headers : String → Option String)
        (t : String), auth.token = some t →
        step s (Event.refreshSuccess auth) = some s' →
        injectAuthHeaders s' headers "Authorization" = some ("bearer " ++ t)) := by
  refine ⟨fun s headers => ⟨rfl, fun k hk => ?_⟩, fun config headers hc => ?_, ?_⟩
  · simp [injectAuthHeaders, hk]
  · simp [injectAuthHeaders, construct, jsShow, hc]
  · intro s s' auth headers t ht h
    cases hf : s.inFlight with
    | none => simp [step, hf] at h
    | some r =>
      simp only [step, hf] at h
      cases h
      simp [injectAuthHeaders, refreshSuccessHandler, jsShow, ht]

/-- C4 witness: on the freshly constructed example state (token abc), writing
into the empty map yields the Authorization value bearer abc. -/
theorem spec_c4_witness :
    injectAuthHeaders (construct exCfg) (fun _ => none) "Authorization"
      = some "bearer abc" :=
  spec_c4.2.1 exCfg (fun _ => none) rfl

/-- C5: login always fails with the not-supported error and never succeeds,
for every user name and every credential of any type. -/
theorem spec_c5 {α : Type} (user : String) (credential : α) :
    login user credential = Except.error "Not supported."
    ∧ ∀ u : User, login user credential ≠ Except.ok u := by
  refine ⟨rfl, fun u h => ?_⟩
  simp [login] at h

/-- C6: in every reachable state at most one pending refresh timer exists,
and while a request is in flight no timer is armed at all, so refresh
attempts are strictly sequential and never overlap. -/
theorem spec_c6 {config : ConfigService} {s : SvcState}
    (hr : Reachable config s) :
    s.pendingTimers.length ≤ 1
    ∧ (s.inFlight.isSome → s.pendingTimers = []) := by
  have hb := reachable_timerBudget hr
  refine ⟨?_, fun hf => reachable_inFlight_noTimers hr hf⟩
  simp only [timerBudget] at hb
  omega

/-- C6 witness: the reachable refreshing state has no armed timer and at most
one pending timer. -/
theorem spec_c6_witness :
    exRefreshing.pendingTimers.length ≤ 1 ∧ exRefreshing.pendingTimers = [] :=
  ⟨(spec_c6 exRefreshing_reachable).1,
   (spec_c6 exRefreshing_reachable).2 rfl⟩

/-- C7: no step of the loop, in particular no successful refresh, changes the
published authenticated value or the current user: both are set once at
construction, and getAuthenticatedUserNow returns the identical value before
and after any refresh completion. -/
theorem spec_c7 {s s' : SvcState} {e : Event} (h : step s e = some s') :
    s'.authenticatedValue = s.authenticatedValue
    ∧ getAuthenticatedUserNow s' = getAuthenticatedUserNow s := by
  obtain ⟨h1, h2, h3, h4⟩ := step_frame h
  exact ⟨h1, h4⟩

/-- C7 witness: the concrete successful refresh from the example refreshing
state leaves the authenticated value and the current user identical. -/
theorem spec_c7_witness :
    (refreshSuccessHandler exRefreshing
        { token := some "xyz", tokenRefreshPeriod := some 60 }).authenticatedValue
      = exRefreshing.authenticatedValue
    ∧ getAuthenticatedUserNow
        (refreshSuccessHandler exRefreshing
          { token := some "xyz", tokenRefreshPeriod := some 60 })
      = getAuthenticatedUserNow exRefreshing :=
  @spec_c7 exRefreshing
    (refreshSuccessHandler exRefreshing
      { token := some "xyz", tokenRefreshPeriod := some 60 })
    (Event.refreshSuccess { token := some "xyz", tokenRefreshPeriod := some 60 })
    rfl

/-- C8: whenever a timer fires, the GET that goes in flight is built from the
browser environment read at that moment (so the url is recomputed on every
refresh, never cached): its url is the base href, with the current origin
prepended when the href starts with a slash, followed by the literal segment
token; the request carries an Accept header of application/json and asks for
the full response via the observe response option. -/
theorem spec_c8 {s : SvcState} {env : BrowserEnv} {s' : SvcState}
    (h : step s (Event.timerFires env) = some s') :
    s'.inFlight = some
      { url := (if startsWithSlash env.baseHref then env.origin ++ env.baseHref
                else env.baseHref) ++ "token"
        accept := "application/json"
        observe := "response" } := by
  cases hp : s.pendingTimers with
  | nil => simp [step, hp] at h
  | cons t rest =>
    simp only [step, hp] at h
    cases h
    simp [refreshRequest, computeTokenUrl]

/-- C8 witness: firing the initial timer of the example configuration, with
base href /studio/ and origin http://example.test, puts in flight a GET of
http://example.test/studio/token with the Accept header application/json and
the observe response option. -/
theorem spec_c8_witness :
    exRefreshing.inFlight = some
      { url := "http://example.test/studio/token"
        accept := "application/json"
        observe := "response" } := by
  have h := @spec_c8 (construct exCfg) exEnv exRefreshing rfl
  exact h

/-- C9: in every reachable state, a new subscriber of isAuthenticated
immediately receives true (the current value of the subject), and the subject
has neither completed nor errored; no operation of the service ever publishes
false after construction. -/
theorem spec_c9 {config : ConfigService} {s : SvcState}
    (hr : Reachable config s) :
    isAuthenticatedFirstEmission s = true
    ∧ s.authCompleted = false
    ∧ s.authErrored = false := by
  obtain ⟨h1, h2, h3, h4⟩ := reachable_flags hr
  exact ⟨h1, h2, h3⟩

/-- C9 witness: immediately after construction from the example configuration
a new subscriber receives true, and the subject has neither completed nor
errored. -/
theorem spec_c9_witness :
    isAuthenticatedFirstEmission (construct exCfg) = true
    ∧ (construct exCfg).authCompleted = false
    ∧ (construct exCfg).authErrored = false :=
  @spec_c9 exCfg (construct exCfg) Reachable.init

/-- C10: for every reachable state with a refresh in flight, a successful
response whose body lacks both the token and the tokenRefreshPeriod fields
(for example the empty JSON object) makes the success handler overwrite the
held token with undefined and arm no timer at all, neither a refresh nor a
30-second retry, so the loop silently halts with a clobbered token. -/
theorem spec_c10 {config : ConfigService} {s : SvcState}
    (hr : Reachable config s) {s' : SvcState}
    (h : step s (Event.refreshSuccess { token := none, tokenRefreshPeriod := none })
      = some s') :
    getAuthenticationSecret s' = none
    ∧ s'.pendingTimers = []
    ∧ s'.inFlight = none := by
  cases hf : s.inFlight with
  | none => simp [step, hf] at h
  | some r =>
    have hempty : s.pendingTimers = [] :=
      reachable_inFlight_noTimers hr (by simp [hf])
    simp only [step, hf] at h
    cases h
    refine ⟨rfl, ?_, rfl⟩
    simp [refreshSuccessHandler, hempty, scheduleIfTruthy]

/-- C10 witness: the empty-body success from the example refreshing state
clobbers the token to undefined and leaves no timer and no request in
flight. -/
theorem spec_c10_witness :
    getAuthenticationSecret
        (refreshSuccessHandler exRefreshing
          { token := none, tokenRefreshPeriod := none }) = none
    ∧ (refreshSuccessHandler exRefreshing
        { token := none, tokenRefreshPeriod := none }).pendingTimers = []
    ∧ (refreshSuccessHandler exRefreshing
        { token := none, tokenRefreshPeriod := none }).inFlight = none :=
  ⟨(spec_c10 exRefreshing_reachable rfl).1,
   (spec_c10 exRefreshing_reachable rfl).2.1,
   (spec_c10 exRefreshing_reachable rfl).2.2⟩

end TokenAuth
